import Mathlib

/-!
# Verification of the `ContentLink` component
(`src/components/ContentLink/index.tsx`)

The component is a React client component:

* `useEffect` number 1 (deps `[router]`): constructs a controller via
  `createController({ onNavigateTo: (path) => router.push(path) })`,
  stores it in `controllerRef.current`; its cleanup calls
  `controller.dispose()` and sets `controllerRef.current = null`.
* `useEffect` number 2 (deps `[pathname]`, no cleanup): runs
  `controllerRef.current?.setCurrentPath(pathname)`.

We embed the component as a transition system over its hook state.  React's
effect semantics are modelled faithfully for this component:

* on initial mount every effect body runs, in declaration order;
* on a re-render an effect re-runs iff its dependency array changed
  (compared against the values at the previous effect run); cleanups of
  re-running effects execute before the new bodies, in declaration order;
* on unmount every cleanup runs in declaration order.

Controllers are identified by the order of their construction (a fresh
natural number per `createController` call).  Router identities are natural
numbers (`useRouter` returns a reference whose identity may change across
renders).  Every call the component makes into a collaborator (the
controller library or the router) is appended to a trace.
-/

/-- One call made by the component into a collaborator.
`construct c r` records `createController` returning controller `c` with an
`onNavigateTo` closure that captured router `r`; `setCurrentPath`,
`dispose` are the controller methods the component calls; `push r p`
records `router.push(p)` on router `r`. -/
inductive Call where
  | construct : Nat → Nat → Call
  | setCurrentPath : Nat → String → Call
  | dispose : Nat → Call
  | push : Nat → String → Call
deriving DecidableEq, Repr

/-- An external event driving the component:
`mount r p` mounts it with router identity `r` and pathname `p`;
`rerender r p` re-renders it with the hook values `r`, `p`;
`unmount` unmounts it;
`navReq c p` is controller `c` invoking its `onNavigateTo` handler with
path `p` (an event originating in the Web Previews plugin). -/
inductive Event where
  | mount : Nat → String → Event
  | rerender : Nat → String → Event
  | unmount : Event
  | navReq : Nat → String → Event
deriving DecidableEq, Repr

/-- The component's state: whether it is mounted, the hook values of the
last committed render (`router`, `pathname`), the `controllerRef` slot,
the `onNavigateTo` closures of all controllers ever constructed (a closure
exists from construction on and records the router it captured), a
fresh-id counter, and the trace of collaborator calls made so far. -/
structure CState where
  mounted : Bool
  router : Nat
  pathname : String
  controllerRef : Option Nat
  handlers : List (Nat × Nat)
  nextId : Nat
  trace : List Call
deriving DecidableEq, Repr

/-- State before the component ever mounts. -/
def CState.start : CState :=
  { mounted := false
    router := 0
    pathname := ""
    controllerRef := none
    handlers := []
    nextId := 0
    trace := [] }

/-- Look up the router captured by controller `c`'s `onNavigateTo`
closure. -/
def handlerOf (hs : List (Nat × Nat)) (c : Nat) :
    Option Nat :=
  match hs with
  | [] => none
  | (c', r) :: rest => if c' = c then some r else handlerOf rest c

/-- Body of the first effect: `createController({ onNavigateTo: ... })`
followed by `controllerRef.current = controller`.  The fresh controller's
handler captures the router of the current render. -/
def runEffect1Body (s : CState) : CState :=
  { s with
    trace := s.trace ++ [Call.construct s.nextId s.router]
    controllerRef := some s.nextId
    handlers := (s.nextId, s.router) :: s.handlers
    nextId := s.nextId + 1 }

/-- Cleanup of the first effect: `controller.dispose()` then
`controllerRef.current = null`.  The captured `controller` equals the
content of the slot, since nothing else writes the slot between the body
and its cleanup. -/
def runEffect1Cleanup (s : CState) : CState :=
  match s.controllerRef with
  | some c =>
      { s with trace := s.trace ++ [Call.dispose c], controllerRef := none }
  | none => s

/-- Body of the second effect:
`controllerRef.current?.setCurrentPath(pathname)` — optional chaining
skips the call when the slot is `null`. -/
def runEffect2Body (s : CState) : CState :=
  match s.controllerRef with
  | some c =>
      { s with trace := s.trace ++ [Call.setCurrentPath c s.pathname] }
  | none => s

/-- One transition of the component.  `mount` runs both effect bodies in
declaration order; `rerender` runs, for each effect whose deps changed,
its cleanup then its body (cleanups of re-running effects first, then
bodies, in declaration order — only effect 1 has a cleanup); `unmount`
runs the cleanups; `navReq c p` runs controller `c`'s captured
`onNavigateTo` closure, i.e. `router.push(p)` on the captured router. -/
def step (s : CState) (e : Event) : CState :=
  match e with
  | Event.mount r p =>
      if s.mounted then s
      else
        runEffect2Body (runEffect1Body
          { s with mounted := true, router := r, pathname := p })
  | Event.rerender r p =>
      if s.mounted then
        let s1 := { s with router := r, pathname := p }
        let s2 :=
          if r = s.router then s1
          else runEffect1Body (runEffect1Cleanup s1)
        if p = s.pathname then s2 else runEffect2Body s2
      else s
  | Event.unmount =>
      if s.mounted then { runEffect1Cleanup s with mounted := false } else s
  | Event.navReq c p =>
      match handlerOf s.handlers c with
      | some r => { s with trace := s.trace ++ [Call.push r p] }
      | none => s

/-- Run the component from the pristine state through a list of events. -/
def run (evs : List Event) : CState :=
  evs.foldl step CState.start

/-- The calls emitted into the trace by one transition. -/
def emitted (s : CState) (e : Event) : List Call :=
  (step s e).trace.drop s.trace.length

/-- Number of `construct` calls for controller `c` in a trace. -/
def constructCount (t : List Call) (c : Nat) : Nat :=
  t.countP fun call =>
    match call with
    | Call.construct c' _ => c' = c
    | _ => false

/-- Number of `dispose` calls for controller `c` in a trace. -/
def disposeCount (t : List Call) (c : Nat) : Nat :=
  t.countP fun call =>
    match call with
    | Call.dispose c' => c' = c
    | _ => false

/-- Number of `setCurrentPath` calls on controller `c` in a trace. -/
def setPathCount (t : List Call) (c : Nat) : Nat :=
  t.countP fun call =>
    match call with
    | Call.setCurrentPath c' _ => c' = c
    | _ => false

/-- Is this call a `setCurrentPath` (on any controller)? -/
def isSetPath (call : Call) : Bool :=
  match call with
  | Call.setCurrentPath _ _ => true
  | _ => false

/-- Is this call a `construct` or a `dispose` (a lifecycle call)? -/
def isLifecycle (call : Call) : Bool :=
  match call with
  | Call.construct _ _ => true
  | Call.dispose _ => true
  | _ => false

/-- Controller `c` is live in state `s`: it has been constructed and not
yet disposed. -/
def live (s : CState) (c : Nat) : Prop :=
  constructCount s.trace c = 1 ∧ disposeCount s.trace c = 0

instance (s : CState) (c : Nat) : Decidable (live s c) := by
  unfold live; infer_instance

/-- Ids constructed in a trace, accumulated left to right on top of
`built`. -/
def builtIds (built : List Nat) : List Call → List Nat
  | [] => built
  | Call.construct c _ :: rest => builtIds (c :: built) rest
  | _ :: rest => builtIds built rest

/-- Scanning a trace left to right, every `setCurrentPath` call targets a
controller already constructed (given the ids in `built` as already
constructed). -/
def orderedFrom (built : List Nat) : List Call → Bool
  | [] => true
  | Call.construct c _ :: rest => orderedFrom (c :: built) rest
  | Call.setCurrentPath c _ :: rest => decide (c ∈ built) && orderedFrom built rest
  | _ :: rest => orderedFrom built rest

example :
    (run [Event.mount 0 "/", Event.rerender 0 "/about", Event.unmount]).trace =
    [Call.construct 0 0, Call.setCurrentPath 0 "/",
     Call.setCurrentPath 0 "/about", Call.dispose 0] := by decide

example :
    (run [Event.mount 0 "/", Event.navReq 0 "/products/42"]).trace =
    [Call.construct 0 0, Call.setCurrentPath 0 "/",
     Call.push 0 "/products/42"] := by decide

example :
    (run [Event.mount 0 "/", Event.rerender 1 "/"]).trace =
    [Call.construct 0 0, Call.setCurrentPath 0 "/",
     Call.dispose 0, Call.construct 1 1] := by decide

/-! ## Step equations

One equation per reachable branch of `step`, so that later proofs can
avoid re-unfolding the transition function. -/

theorem step_mount_mounted (s : CState) (r : Nat) (p : String)
    (hm : s.mounted = true) : step s (Event.mount r p) = s := by
  simp [step, hm]

theorem step_mount (s : CState) (r : Nat) (p : String)
    (hm : s.mounted = false) :
    step s (Event.mount r p) =
    { s with
      mounted := true
      router := r
      pathname := p
      controllerRef := some s.nextId
      handlers := (s.nextId, r) :: s.handlers
      nextId := s.nextId + 1
      trace := s.trace ++
        [Call.construct s.nextId r, Call.setCurrentPath s.nextId p] } := by
  simp [step, hm, runEffect1Body, runEffect2Body]

theorem step_rerender_unmounted (s : CState) (r : Nat) (p : String)
    (hm : s.mounted = false) : step s (Event.rerender r p) = s := by
  simp [step, hm]

theorem step_rerender_same (s : CState)
    (hm : s.mounted = true) :
    step s (Event.rerender s.router s.pathname) = s := by
  obtain ⟨m, r0, p0, cr, hs, n, t⟩ := s
  subst hm
  simp [step]

theorem step_rerender_path (s : CState) (p : String) (c : Nat)
    (hm : s.mounted = true) (hp : p ≠ s.pathname)
    (hc : s.controllerRef = some c) :
    step s (Event.rerender s.router p) =
    { s with
      pathname := p
      trace := s.trace ++ [Call.setCurrentPath c p] } := by
  simp [step, hm, hp, runEffect2Body, hc]

theorem step_rerender_router (s : CState) (r : Nat) (c : Nat)
    (hm : s.mounted = true) (hr : r ≠ s.router)
    (hc : s.controllerRef = some c) :
    step s (Event.rerender r s.pathname) =
    { s with
      router := r
      controllerRef := some s.nextId
      handlers := (s.nextId, r) :: s.handlers
      nextId := s.nextId + 1
      trace := s.trace ++ [Call.dispose c, Call.construct s.nextId r] } := by
  simp [step, hm, hr, runEffect1Cleanup, runEffect1Body, hc]

theorem step_rerender_both (s : CState) (r : Nat) (p : String)
    (c : Nat) (hm : s.mounted = true) (hr : r ≠ s.router)
    (hp : p ≠ s.pathname) (hc : s.controllerRef = some c) :
    step s (Event.rerender r p) =
    { s with
      router := r
      pathname := p
      controllerRef := some s.nextId
      handlers := (s.nextId, r) :: s.handlers
      nextId := s.nextId + 1
      trace := s.trace ++ [Call.dispose c, Call.construct s.nextId r,
        Call.setCurrentPath s.nextId p] } := by
  simp [step, hm, hr, hp, runEffect1Cleanup, runEffect1Body, runEffect2Body,
    hc]

theorem step_unmount_unmounted (s : CState)
    (hm : s.mounted = false) : step s Event.unmount = s := by
  simp [step, hm]

theorem step_unmount (s : CState) (c : Nat)
    (hm : s.mounted = true) (hc : s.controllerRef = some c) :
    step s Event.unmount =
    { s with
      mounted := false
      controllerRef := none
      trace := s.trace ++ [Call.dispose c] } := by
  simp [step, hm, runEffect1Cleanup, hc]

theorem step_navReq_some (s : CState) (c : Nat) (p : String)
    (r : Nat) (h : handlerOf s.handlers c = some r) :
    step s (Event.navReq c p) =
    { s with trace := s.trace ++ [Call.push r p] } := by
  simp [step, h]

theorem step_navReq_none (s : CState) (c : Nat) (p : String)
    (h : handlerOf s.handlers c = none) :
    step s (Event.navReq c p) = s := by
  simp [step, h]

/-! ## Counting lemmas -/

theorem constructCount_append (t1 t2 : List Call) (c : Nat) :
    constructCount (t1 ++ t2) c = constructCount t1 c + constructCount t2 c := by
  simp [constructCount, List.countP_append]

theorem disposeCount_append (t1 t2 : List Call) (c : Nat) :
    disposeCount (t1 ++ t2) c = disposeCount t1 c + disposeCount t2 c := by
  simp [disposeCount, List.countP_append]

theorem setPathCount_append (t1 t2 : List Call) (c : Nat) :
    setPathCount (t1 ++ t2) c = setPathCount t1 c + setPathCount t2 c := by
  simp [setPathCount, List.countP_append]

theorem constructCount_nil (c : Nat) : constructCount [] c = 0 := rfl

theorem disposeCount_nil (c : Nat) : disposeCount [] c = 0 := rfl

theorem setPathCount_nil (c : Nat) : setPathCount [] c = 0 := rfl

theorem constructCount_cons (x : Call) (t : List Call) (c : Nat) :
    constructCount (x :: t) c =
    constructCount t c +
      (match x with
       | Call.construct c' _ => if c' = c then 1 else 0
       | _ => 0) := by
  cases x <;> simp [constructCount, List.countP_cons]

theorem disposeCount_cons (x : Call) (t : List Call) (c : Nat) :
    disposeCount (x :: t) c =
    disposeCount t c +
      (match x with
       | Call.dispose c' => if c' = c then 1 else 0
       | _ => 0) := by
  cases x <;> simp [disposeCount, List.countP_cons]

theorem setPathCount_cons (x : Call) (t : List Call) (c : Nat) :
    setPathCount (x :: t) c =
    setPathCount t c +
      (match x with
       | Call.setCurrentPath c' _ => if c' = c then 1 else 0
       | _ => 0) := by
  cases x <;> simp [setPathCount, List.countP_cons]

theorem constructCount_pos_mem (t : List Call) (c : Nat)
    (h : 0 < constructCount t c) : ∃ r, Call.construct c r ∈ t := by
  rw [constructCount, List.countP_pos_iff] at h
  obtain ⟨a, ha, hp⟩ := h
  cases a with
  | construct c' r =>
      refine ⟨r, ?_⟩
      simp only [decide_eq_true_eq] at hp
      subst hp
      exact ha
  | setCurrentPath c' p => simp at hp
  | dispose c' => simp at hp
  | push r p => simp at hp

theorem constructCount_mem_pos (t : List Call) (c : Nat)
    (r : Nat) (h : Call.construct c r ∈ t) : 0 < constructCount t c := by
  rw [constructCount, List.countP_pos_iff]
  exact ⟨Call.construct c r, h, by simp⟩

/-! ## Construction-before-use machinery -/

theorem builtIds_append (built : List Nat) (t t' : List Call) :
    builtIds built (t ++ t') = builtIds (builtIds built t) t' := by
  induction t generalizing built with
  | nil => simp [builtIds]
  | cons x rest ih => cases x <;> simp [builtIds, ih]

theorem orderedFrom_append (built : List Nat) (t t' : List Call) :
    orderedFrom built (t ++ t') =
    (orderedFrom built t && orderedFrom (builtIds built t) t') := by
  induction t generalizing built with
  | nil => simp [orderedFrom, builtIds]
  | cons x rest ih =>
      cases x <;> simp [orderedFrom, builtIds, ih, Bool.and_assoc]

theorem mem_builtIds (built : List Nat) (t : List Call)
    (c : Nat) (h : c ∈ builtIds built t) :
    c ∈ built ∨ ∃ r, Call.construct c r ∈ t := by
  induction t generalizing built with
  | nil => simp [builtIds] at h; exact Or.inl h
  | cons x rest ih =>
      cases x with
      | construct c' r =>
          rcases ih (c' :: built) (by simpa [builtIds] using h) with hy | ⟨r', hr'⟩
          · rcases List.mem_cons.mp hy with hce | hb
            · exact Or.inr ⟨r, by simp [hce]⟩
            · exact Or.inl hb
          · exact Or.inr ⟨r', List.mem_cons_of_mem _ hr'⟩
      | setCurrentPath c' p =>
          rcases ih built (by simpa [builtIds] using h) with hb | ⟨r', hr'⟩
          · exact Or.inl hb
          · exact Or.inr ⟨r', List.mem_cons_of_mem _ hr'⟩
      | dispose c' =>
          rcases ih built (by simpa [builtIds] using h) with hb | ⟨r', hr'⟩
          · exact Or.inl hb
          · exact Or.inr ⟨r', List.mem_cons_of_mem _ hr'⟩
      | push r p =>
          rcases ih built (by simpa [builtIds] using h) with hb | ⟨r', hr'⟩
          · exact Or.inl hb
          · exact Or.inr ⟨r', List.mem_cons_of_mem _ hr'⟩

theorem builtIds_mem_of_mem (built : List Nat) (t : List Call)
    (c : Nat) (h : c ∈ built) : c ∈ builtIds built t := by
  induction t generalizing built with
  | nil => simpa [builtIds] using h
  | cons x rest ih =>
      cases x <;> simp [builtIds] <;> first
        | exact ih _ (List.mem_cons_of_mem _ h)
        | exact ih _ h

theorem construct_mem_builtIds (built : List Nat) (t : List Call)
    (c : Nat) (r : Nat) (h : Call.construct c r ∈ t) :
    c ∈ builtIds built t := by
  induction t generalizing built with
  | nil => simp at h
  | cons x rest ih =>
      rcases List.mem_cons.mp h with hx | hrest
      · subst hx
        simp only [builtIds]
        exact builtIds_mem_of_mem _ _ _ (List.mem_cons_self _ _)
      · cases x <;> simp [builtIds] <;> exact ih _ hrest

/-! ## The reachable-state invariant -/

/-- Invariant satisfied by every reachable state of the component:

* when mounted, `controllerRef` holds exactly the most recently
  constructed controller; when unmounted, it is empty;
* every controller id below `nextId` has been constructed exactly once,
  no other id ever;
* every constructed controller has been disposed exactly once, except the
  one currently in the slot, which is not disposed; never a double
  dispose;
* no `setCurrentPath` call ever targets a not-yet-allocated id;
* scanning the trace left to right, every `setCurrentPath` targets an
  already-constructed controller;
* every recorded `onNavigateTo` closure belongs to a constructed
  controller and captured the router passed at its construction. -/
structure StateInv (s : CState) : Prop where
  refOfMounted : s.mounted = true →
    ∃ c, s.controllerRef = some c ∧ c + 1 = s.nextId
  refOfUnmounted : s.mounted = false → s.controllerRef = none
  constructedOnce : ∀ c,
    constructCount s.trace c = if c < s.nextId then 1 else 0
  disposedOnce : ∀ c,
    disposeCount s.trace c =
      if s.controllerRef = some c then 0
      else if c < s.nextId then 1 else 0
  pathFresh : ∀ c, s.nextId ≤ c → setPathCount s.trace c = 0
  orderedTrace : orderedFrom [] s.trace = true
  handlersSound : ∀ c r,
    handlerOf s.handlers c = some r → Call.construct c r ∈ s.trace

theorem stateInv_start : StateInv CState.start := by
  constructor <;> simp [CState.start, constructCount, disposeCount,
    setPathCount, orderedFrom, handlerOf]

theorem contains_builtIds_of_constructed (s : CState) (hi : StateInv s)
    (c : Nat) (hc : c < s.nextId) : c ∈ builtIds [] s.trace := by
  have h1 : constructCount s.trace c = 1 := by
    rw [hi.constructedOnce c, if_pos hc]
  obtain ⟨r, hr⟩ := constructCount_pos_mem s.trace c (by omega)
  exact construct_mem_builtIds [] s.trace c r hr

theorem stateInv_step (s : CState) (e : Event) (hi : StateInv s) :
    StateInv (step s e) := by
  cases e with
  | mount r p =>
      cases hm : s.mounted with
      | true => rw [step_mount_mounted s r p hm]; exact hi
      | false =>
          have href : s.controllerRef = none := hi.refOfUnmounted hm
          rw [step_mount s r p hm]
          refine ⟨?_, ?_, ?_, ?_, ?_, ?_, ?_⟩ <;> dsimp only
          · intro _
            exact ⟨s.nextId, rfl, rfl⟩
          · intro hfalse
            simp at hfalse
          · intro c
            rw [constructCount_append, hi.constructedOnce c]
            simp only [constructCount_cons, constructCount_nil]
            split_ifs <;> omega
          · intro c
            rw [disposeCount_append, hi.disposedOnce c, href]
            simp [disposeCount_cons, disposeCount_nil]
            split_ifs <;> omega
          · intro c hc
            rw [setPathCount_append, hi.pathFresh c (by omega)]
            have hne : s.nextId ≠ c := by omega
            simp [setPathCount_cons, setPathCount_nil, hne]
          · rw [orderedFrom_append]
            simp [orderedFrom, hi.orderedTrace]
          · intro c r' h
            simp only [handlerOf] at h
            by_cases hc : s.nextId = c
            · rw [if_pos hc] at h
              obtain rfl : r = r' := by simpa using h
              subst hc
              exact List.mem_append_right _ (by simp)
            · rw [if_neg hc] at h
              exact List.mem_append_left _ (hi.handlersSound c r' h)
  | rerender r p =>
      cases hm : s.mounted with
      | false => rw [step_rerender_unmounted s r p hm]; exact hi
      | true =>
          obtain ⟨m, hcm, hmn⟩ := hi.refOfMounted hm
          by_cases hr : r = s.router
          · by_cases hp : p = s.pathname
            · subst hr; subst hp
              rw [step_rerender_same s hm]; exact hi
            · subst hr
              rw [step_rerender_path s p m hm hp hcm]
              refine ⟨?_, ?_, ?_, ?_, ?_, ?_, ?_⟩ <;> dsimp only
              · intro _
                exact ⟨m, hcm, hmn⟩
              · intro hfalse
                simp [hm] at hfalse
              · intro c
                rw [constructCount_append, hi.constructedOnce c]
                simp [constructCount_cons, constructCount_nil]
              · intro c
                rw [disposeCount_append, hi.disposedOnce c]
                simp [disposeCount_cons, disposeCount_nil]
              · intro c hc
                rw [setPathCount_append, hi.pathFresh c (by omega)]
                have hne : m ≠ c := by omega
                simp [setPathCount_cons, setPathCount_nil, hne]
              · rw [orderedFrom_append]
                have hmem : m ∈ builtIds [] s.trace :=
                  contains_builtIds_of_constructed s hi m (by omega)
                simp [orderedFrom, hi.orderedTrace, hmem]
              · intro c r' h
                exact List.mem_append_left _ (hi.handlersSound c r' h)
          · by_cases hp : p = s.pathname
            · subst hp
              rw [step_rerender_router s r m hm hr hcm]
              refine ⟨?_, ?_, ?_, ?_, ?_, ?_, ?_⟩ <;> dsimp only
              · intro _
                exact ⟨s.nextId, rfl, rfl⟩
              · intro hfalse
                simp [hm] at hfalse
              · intro c
                rw [constructCount_append, hi.constructedOnce c]
                simp only [constructCount_cons, constructCount_nil]
                split_ifs <;> omega
              · intro c
                rw [disposeCount_append, hi.disposedOnce c, hcm]
                simp only [disposeCount_cons, disposeCount_nil,
                  Option.some.injEq]
                split_ifs <;> omega
              · intro c hc
                rw [setPathCount_append, hi.pathFresh c (by omega)]
                simp [setPathCount_cons, setPathCount_nil]
              · rw [orderedFrom_append]
                simp [orderedFrom, hi.orderedTrace]
              · intro c r' h
                simp only [handlerOf] at h
                by_cases hc : s.nextId = c
                · rw [if_pos hc] at h
                  obtain rfl : r = r' := by simpa using h
                  subst hc
                  exact List.mem_append_right _ (by simp)
                · rw [if_neg hc] at h
                  exact List.mem_append_left _ (hi.handlersSound c r' h)
            · rw [step_rerender_both s r p m hm hr hp hcm]
              refine ⟨?_, ?_, ?_, ?_, ?_, ?_, ?_⟩ <;> dsimp only
              · intro _
                exact ⟨s.nextId, rfl, rfl⟩
              · intro hfalse
                simp [hm] at hfalse
              · intro c
                rw [constructCount_append, hi.constructedOnce c]
                simp only [constructCount_cons, constructCount_nil]
                split_ifs <;> omega
              · intro c
                rw [disposeCount_append, hi.disposedOnce c, hcm]
                simp only [disposeCount_cons, disposeCount_nil,
                  Option.some.injEq]
                split_ifs <;> omega
              · intro c hc
                rw [setPathCount_append, hi.pathFresh c (by omega)]
                have hne : s.nextId ≠ c := by omega
                simp [setPathCount_cons, setPathCount_nil, hne]
              · rw [orderedFrom_append]
                simp [orderedFrom, hi.orderedTrace]
              · intro c r' h
                simp only [handlerOf] at h
                by_cases hc : s.nextId = c
                · rw [if_pos hc] at h
                  obtain rfl : r = r' := by simpa using h
                  subst hc
                  exact List.mem_append_right _ (by simp)
                · rw [if_neg hc] at h
                  exact List.mem_append_left _ (hi.handlersSound c r' h)
  | unmount =>
      cases hm : s.mounted with
      | false => rw [step_unmount_unmounted s hm]; exact hi
      | true =>
          obtain ⟨m, hcm, hmn⟩ := hi.refOfMounted hm
          rw [step_unmount s m hm hcm]
          refine ⟨?_, ?_, ?_, ?_, ?_, ?_, ?_⟩ <;> dsimp only
          · intro hfalse
            simp at hfalse
          · intro _
            rfl
          · intro c
            rw [constructCount_append, hi.constructedOnce c]
            simp [constructCount_cons, constructCount_nil]
          · intro c
            rw [disposeCount_append, hi.disposedOnce c, hcm]
            simp [disposeCount_cons, disposeCount_nil]
            split_ifs <;> omega
          · intro c hc
            rw [setPathCount_append, hi.pathFresh c hc]
            simp [setPathCount_cons, setPathCount_nil]
          · rw [orderedFrom_append]
            simp [orderedFrom, hi.orderedTrace]
          · intro c r' h
            exact List.mem_append_left _ (hi.handlersSound c r' h)
  | navReq c p =>
      cases hh : handlerOf s.handlers c with
      | none => rw [step_navReq_none s c p hh]; exact hi
      | some r =>
          rw [step_navReq_some s c p r hh]
          refine ⟨?_, ?_, ?_, ?_, ?_, ?_, ?_⟩ <;> dsimp only
          · intro hm
            exact hi.refOfMounted hm
          · intro hm
            exact hi.refOfUnmounted hm
          · intro c'
            rw [constructCount_append, hi.constructedOnce c']
            simp [constructCount_cons, constructCount_nil]
          · intro c'
            rw [disposeCount_append, hi.disposedOnce c']
            simp [disposeCount_cons, disposeCount_nil]
          · intro c' hc'
            rw [setPathCount_append, hi.pathFresh c' hc']
            simp [setPathCount_cons, setPathCount_nil]
          · rw [orderedFrom_append]
            simp [orderedFrom, hi.orderedTrace]
          · intro c' r' h
            exact List.mem_append_left _ (hi.handlersSound c' r' h)

theorem stateInv_foldl (s : CState) (evs : List Event) (hi : StateInv s) :
    StateInv (List.foldl step s evs) := by
  induction evs generalizing s with
  | nil => exact hi
  | cons e rest ih => exact ih (step s e) (stateInv_step s e hi)

theorem stateInv_run (evs : List Event) : StateInv (run evs) :=
  stateInv_foldl CState.start evs stateInv_start

/-! ## Emitted-call equations -/

theorem emitted_eq (s : CState) (e : Event) (l : List Call)
    (h : (step s e).trace = s.trace ++ l) : emitted s e = l := by
  simp [emitted, h]

theorem emitted_of_step_self (s : CState) (e : Event)
    (h : step s e = s) : emitted s e = [] := by
  simp [emitted, h]

theorem emitted_mount (s : CState) (r : Nat) (p : String)
    (hm : s.mounted = false) :
    emitted s (Event.mount r p) =
    [Call.construct s.nextId r, Call.setCurrentPath s.nextId p] :=
  emitted_eq _ _ _ (by rw [step_mount s r p hm])

theorem emitted_rerender_path (s : CState) (p : String) (c : Nat)
    (hm : s.mounted = true) (hp : p ≠ s.pathname)
    (hc : s.controllerRef = some c) :
    emitted s (Event.rerender s.router p) = [Call.setCurrentPath c p] :=
  emitted_eq _ _ _ (by rw [step_rerender_path s p c hm hp hc])

theorem emitted_rerender_router (s : CState) (r : Nat) (c : Nat)
    (hm : s.mounted = true) (hr : r ≠ s.router)
    (hc : s.controllerRef = some c) :
    emitted s (Event.rerender r s.pathname) =
    [Call.dispose c, Call.construct s.nextId r] :=
  emitted_eq _ _ _ (by rw [step_rerender_router s r c hm hr hc])

theorem emitted_rerender_both (s : CState) (r : Nat) (p : String) (c : Nat)
    (hm : s.mounted = true) (hr : r ≠ s.router) (hp : p ≠ s.pathname)
    (hc : s.controllerRef = some c) :
    emitted s (Event.rerender r p) =
    [Call.dispose c, Call.construct s.nextId r,
     Call.setCurrentPath s.nextId p] :=
  emitted_eq _ _ _ (by rw [step_rerender_both s r p c hm hr hp hc])

theorem emitted_unmount (s : CState) (c : Nat)
    (hm : s.mounted = true) (hc : s.controllerRef = some c) :
    emitted s Event.unmount = [Call.dispose c] :=
  emitted_eq _ _ _ (by rw [step_unmount s c hm hc])

theorem emitted_navReq_some (s : CState) (c : Nat) (p : String) (r : Nat)
    (h : handlerOf s.handlers c = some r) :
    emitted s (Event.navReq c p) = [Call.push r p] :=
  emitted_eq _ _ _ (by rw [step_navReq_some s c p r h])

theorem step_rerender_path_none (s : CState) (p : String)
    (hm : s.mounted = true) (hp : p ≠ s.pathname)
    (hc : s.controllerRef = none) :
    step s (Event.rerender s.router p) = { s with pathname := p } := by
  simp [step, hm, hp, runEffect2Body, hc]

/-! ## Helpers for the ordering and path-report claims -/

theorem ordered_split (t : List Call) (ho : orderedFrom [] t = true)
    (t1 t2 : List Call) (c : Nat) (p : String)
    (h : t = t1 ++ Call.setCurrentPath c p :: t2) :
    ∃ r, Call.construct c r ∈ t1 := by
  subst h
  rw [orderedFrom_append, Bool.and_eq_true] at ho
  have h2 := ho.2
  rw [show Call.setCurrentPath c p :: t2 =
    [Call.setCurrentPath c p] ++ t2 from rfl, orderedFrom_append,
    Bool.and_eq_true] at h2
  have h3 := h2.1
  simp only [orderedFrom, Bool.and_eq_true, decide_eq_true_eq] at h3
  rcases mem_builtIds [] t1 c h3.1 with hb | hb
  · simp at hb
  · exact hb

/-- Events that keep the observed pathname equal to `p` and do not start a
new mount cycle. -/
def pathSafeEvent (p : String) : Event → Bool
  | Event.rerender _ q => q = p
  | Event.mount _ _ => false
  | _ => true

theorem setPathCount_step_pathSafe (s : CState) (e : Event) (p : String)
    (n : Nat) (hi : StateInv s) (hp : s.pathname = p)
    (hs : pathSafeEvent p e = true)
    (h0 : setPathCount s.trace n = 0) :
    setPathCount (step s e).trace n = 0 ∧ (step s e).pathname = p := by
  cases e with
  | mount r q => simp [pathSafeEvent] at hs
  | rerender r q =>
      have hq : q = s.pathname := by
        have hqp : q = p := by simpa [pathSafeEvent] using hs
        rw [hqp, ← hp]
      subst hq
      cases hm : s.mounted with
      | false => rw [step_rerender_unmounted s r s.pathname hm]; exact ⟨h0, hp⟩
      | true =>
          obtain ⟨m, hcm, hmn⟩ := hi.refOfMounted hm
          by_cases hr : r = s.router
          · subst hr
            rw [step_rerender_same s hm]
            exact ⟨h0, hp⟩
          · rw [step_rerender_router s r m hm hr hcm]
            refine ⟨?_, hp⟩
            dsimp only
            rw [setPathCount_append, h0]
            simp [setPathCount_cons, setPathCount_nil]
  | unmount =>
      cases hm : s.mounted with
      | false => rw [step_unmount_unmounted s hm]; exact ⟨h0, hp⟩
      | true =>
          obtain ⟨m, hcm, hmn⟩ := hi.refOfMounted hm
          rw [step_unmount s m hm hcm]
          refine ⟨?_, hp⟩
          dsimp only
          rw [setPathCount_append, h0]
          simp [setPathCount_cons, setPathCount_nil]
  | navReq c q =>
      cases hh : handlerOf s.handlers c with
      | none => rw [step_navReq_none s c q hh]; exact ⟨h0, hp⟩
      | some r =>
          rw [step_navReq_some s c q r hh]
          refine ⟨?_, hp⟩
          dsimp only
          rw [setPathCount_append, h0]
          simp [setPathCount_cons, setPathCount_nil]

theorem setPathCount_foldl_pathSafe (evs : List Event) (s : CState)
    (p : String) (n : Nat) (hi : StateInv s) (hp : s.pathname = p)
    (hs : ∀ e ∈ evs, pathSafeEvent p e = true)
    (h0 : setPathCount s.trace n = 0) :
    setPathCount (List.foldl step s evs).trace n = 0 := by
  induction evs generalizing s with
  | nil => exact h0
  | cons e rest ih =>
      obtain ⟨h1, h2⟩ := setPathCount_step_pathSafe s e p n hi hp
        (hs e (List.mem_cons_self e rest)) h0
      exact ih (step s e) (stateInv_step s e hi) h2
        (fun e' he' => hs e' (List.mem_cons_of_mem e he')) h1

theorem emitted_of_trace_eq (s : CState) (e : Event)
    (h : (step s e).trace = s.trace) : emitted s e = [] := by
  simp [emitted, h]

/-! ## The claims -/

/-- C1: over any event sequence of mount/unmount (and router-change
re-run) cycles, once the component has ended unmounted, every controller
constructed has been disposed exactly once: per controller id the dispose
count equals the construct count, and no controller is constructed (hence
disposed) more than once — no leak, no double dispose. -/
theorem claim1_dispose_balance (evs : List Event)
    (h : (run evs).mounted = false) (c : Nat) :
    disposeCount (run evs).trace c = constructCount (run evs).trace c ∧
    constructCount (run evs).trace c ≤ 1 := by
  have hi := stateInv_run evs
  have href := hi.refOfUnmounted h
  have h1 := hi.constructedOnce c
  have h2 := hi.disposedOnce c
  rw [href] at h2
  simp only [reduceCtorEq, if_false] at h2
  refine ⟨?_, ?_⟩
  · rw [h1, h2]
  · rw [h1]
    split_ifs <;> omega

/-- Witness for C1: mount, router-change re-render, unmount; controller 0
is constructed once and disposed once. -/
theorem claim1_dispose_balance_witness :
    (run [Event.mount 0 "/", Event.rerender 1 "/", Event.unmount]).mounted
      = false ∧
    (disposeCount
        (run [Event.mount 0 "/", Event.rerender 1 "/",
          Event.unmount]).trace 0 =
      constructCount
        (run [Event.mount 0 "/", Event.rerender 1 "/",
          Event.unmount]).trace 0 ∧
     constructCount
        (run [Event.mount 0 "/", Event.rerender 1 "/",
          Event.unmount]).trace 0 ≤ 1) :=
  ⟨by decide,
   claim1_dispose_balance
     [Event.mount 0 "/", Event.rerender 1 "/", Event.unmount] (by decide) 0⟩

/-- C2: at any reachable state, a controller is live (constructed and not
disposed) exactly when it is the one in `controllerRef`, so the slot is
empty or holds exactly one live controller and no two live controllers
coexist; and the controller in the slot is the most recently constructed
one. -/
theorem claim2_slot_holds_unique_live (evs : List Event) (c : Nat) :
    (live (run evs) c ↔ (run evs).controllerRef = some c) ∧
    ((run evs).controllerRef = some c → c + 1 = (run evs).nextId) := by
  have hi := stateInv_run evs
  have h1 := hi.constructedOnce c
  have h2 := hi.disposedOnce c
  have hkey : (run evs).controllerRef = some c →
      c + 1 = (run evs).nextId := by
    intro href
    cases hm : (run evs).mounted with
    | false =>
        rw [hi.refOfUnmounted hm] at href
        cases href
    | true =>
        obtain ⟨m, hm1, hm2⟩ := hi.refOfMounted hm
        rw [hm1] at href
        obtain rfl : m = c := by injection href
        exact hm2
  refine ⟨⟨?_, ?_⟩, hkey⟩
  · intro hlive
    obtain ⟨hc1, hc2⟩ := hlive
    rw [h1] at hc1
    by_contra hne
    rw [h2, if_neg hne] at hc2
    by_cases hlt : c < (run evs).nextId
    · rw [if_pos hlt] at hc2
      omega
    · rw [if_neg hlt] at hc1
      omega
  · intro href
    have hn := hkey href
    exact ⟨by rw [h1, if_pos (by omega)], by rw [h2, if_pos href]⟩

/-- Witness for C2 after a plain mount: controller 0 is live and in the
slot. -/
theorem claim2_slot_holds_unique_live_witness :
    (live (run [Event.mount 5 "/"]) 0 ↔
      (run [Event.mount 5 "/"]).controllerRef = some 0) ∧
    ((run [Event.mount 5 "/"]).controllerRef = some 0 →
      0 + 1 = (run [Event.mount 5 "/"]).nextId) :=
  claim2_slot_holds_unique_live [Event.mount 5 "/"] 0

/-- C3: a path change event while mounted (re-render with a new pathname)
makes exactly one `setCurrentPath` call, on the controller held in the
slot after the render, and its argument is exactly the new path. -/
theorem claim3_path_change_one_report (evs : List Event) (r : Nat)
    (p : String) (hm : (run evs).mounted = true)
    (hp : p ≠ (run evs).pathname) :
    ∃ c, (step (run evs) (Event.rerender r p)).controllerRef = some c ∧
      List.filter isSetPath (emitted (run evs) (Event.rerender r p)) =
        [Call.setCurrentPath c p] := by
  have hi := stateInv_run evs
  obtain ⟨m, hcm, hmn⟩ := hi.refOfMounted hm
  by_cases hr : r = (run evs).router
  · subst hr
    refine ⟨m, ?_, ?_⟩
    · rw [step_rerender_path (run evs) p m hm hp hcm]
      exact hcm
    · rw [emitted_rerender_path (run evs) p m hm hp hcm]
      simp [isSetPath]
  · refine ⟨(run evs).nextId, ?_, ?_⟩
    · rw [step_rerender_both (run evs) r p m hm hr hp hcm]
    · rw [emitted_rerender_both (run evs) r p m hm hr hp hcm]
      simp [isSetPath]

/-- Witness for C3: mounted at "/", the path changes to "/about". -/
theorem claim3_path_change_one_report_witness :
    (run [Event.mount 0 "/"]).mounted = true ∧
    "/about" ≠ (run [Event.mount 0 "/"]).pathname ∧
    (∃ c, (step (run [Event.mount 0 "/"])
        (Event.rerender 0 "/about")).controllerRef = some c ∧
      List.filter isSetPath
          (emitted (run [Event.mount 0 "/"]) (Event.rerender 0 "/about")) =
        [Call.setCurrentPath c "/about"]) :=
  ⟨by decide, by decide,
   claim3_path_change_one_report [Event.mount 0 "/"] 0 "/about"
     (by decide) (by decide)⟩

/-- C4: when controller `c` invokes its `onNavigateTo` handler with path
`p`, the component performs exactly one `router.push` call, with exactly
the string `p`, on the router captured when that controller was
constructed — no validation, no transformation, no retry. -/
theorem claim4_nav_exact_forward (evs : List Event) (c : Nat) (p : String)
    (r : Nat) (h : handlerOf (run evs).handlers c = some r) :
    emitted (run evs) (Event.navReq c p) = [Call.push r p] ∧
    Call.construct c r ∈ (run evs).trace := by
  have hi := stateInv_run evs
  exact ⟨emitted_navReq_some (run evs) c p r h, hi.handlersSound c r h⟩

/-- Witness for C4: the mounted controller navigates to "/products/42". -/
theorem claim4_nav_exact_forward_witness :
    handlerOf (run [Event.mount 7 "/"]).handlers 0 = some 7 ∧
    (emitted (run [Event.mount 7 "/"]) (Event.navReq 0 "/products/42") =
        [Call.push 7 "/products/42"] ∧
      Call.construct 0 7 ∈ (run [Event.mount 7 "/"]).trace) :=
  ⟨by decide,
   claim4_nav_exact_forward [Event.mount 7 "/"] 0 "/products/42" 7
     (by decide)⟩

/-- C5: a path change event arriving while the controller slot is empty
(before the mount effect has run, or after disposal) changes nothing at
all: the state is untouched and zero collaborator calls are made — the
report is silently skipped, nothing is queued. -/
theorem claim5_skip_when_empty (evs : List Event) (r : Nat) (p : String)
    (h : (run evs).controllerRef = none) :
    step (run evs) (Event.rerender r p) = run evs ∧
    emitted (run evs) (Event.rerender r p) = [] := by
  have hi := stateInv_run evs
  cases hm : (run evs).mounted with
  | false =>
      have hstep := step_rerender_unmounted (run evs) r p hm
      exact ⟨hstep, emitted_of_step_self _ _ hstep⟩
  | true =>
      obtain ⟨m, hcm, _⟩ := hi.refOfMounted hm
      rw [h] at hcm
      cases hcm

/-- Witness for C5: after mount and unmount the slot is empty; a path
change is a complete no-op. -/
theorem claim5_skip_when_empty_witness :
    (run [Event.mount 0 "/", Event.unmount]).controllerRef = none ∧
    (step (run [Event.mount 0 "/", Event.unmount])
        (Event.rerender 0 "/next") =
      run [Event.mount 0 "/", Event.unmount] ∧
    emitted (run [Event.mount 0 "/", Event.unmount])
        (Event.rerender 0 "/next") = []) :=
  ⟨by decide,
   claim5_skip_when_empty [Event.mount 0 "/", Event.unmount] 0 "/next"
     (by decide)⟩

/-- C6: within any run, controller construction precedes use: wherever a
`setCurrentPath` call appears in the trace, a `construct` of that
controller appears strictly earlier; and a navigation forward can only be
emitted for a controller whose construction is already in the trace. -/
theorem claim6_init_precedes_use (evs : List Event) :
    (∀ t1 c p t2,
        (run evs).trace = t1 ++ Call.setCurrentPath c p :: t2 →
        ∃ r, Call.construct c r ∈ t1) ∧
    (∀ c p, emitted (run evs) (Event.navReq c p) ≠ [] →
        ∃ r, Call.construct c r ∈ (run evs).trace) := by
  have hi := stateInv_run evs
  constructor
  · intro t1 c p t2 h
    exact ordered_split (run evs).trace hi.orderedTrace t1 t2 c p h
  · intro c p hne
    cases hh : handlerOf (run evs).handlers c with
    | none =>
        exact absurd
          (emitted_of_step_self _ _ (step_navReq_none (run evs) c p hh)) hne
    | some r =>
        exact ⟨r, hi.handlersSound c r hh⟩

/-- Witness for C6: after a mount, the initial path report at position 1
of the trace is preceded by the construction at position 0, and a
navigation request emits only for the constructed controller. -/
theorem claim6_init_precedes_use_witness :
    (∃ r, Call.construct 0 r ∈ [Call.construct 0 5]) ∧
    (∃ r, Call.construct 0 r ∈ (run [Event.mount 5 "/"]).trace) :=
  ⟨(claim6_init_precedes_use [Event.mount 5 "/"]).1
      [Call.construct 0 5] 0 "/" [] (by decide),
   (claim6_init_precedes_use [Event.mount 5 "/"]).2 0 "/go" (by decide)⟩

/-- C7, counterexample: the claimed three-call trace for the scenario
mount → path changes to "/about" → unmount is false on the code: the
pathname effect also fires at mount and reports the initial pathname
(here "/"), so the trace holds four calls, not three. -/
theorem claim7_three_call_counterexample :
    (run [Event.mount 0 "/", Event.rerender 0 "/about",
        Event.unmount]).trace ≠
    [Call.construct 0 0, Call.setCurrentPath 0 "/about",
     Call.dispose 0] := by
  decide

/-- C7, amended: for the scenario mount (router `r`, initial path `p0`,
with `p0 ≠ "/about"`), path change to "/about", unmount, the exact call
sequence is construct, setCurrentPath(p0), setCurrentPath("/about"),
dispose — the three claimed calls in the claimed relative order, plus the
initial path report at mount. -/
theorem claim7_amended_trace (r : Nat) (p0 : String)
    (hp : p0 ≠ "/about") :
    (run [Event.mount r p0, Event.rerender r "/about",
        Event.unmount]).trace =
    [Call.construct 0 r, Call.setCurrentPath 0 p0,
     Call.setCurrentPath 0 "/about", Call.dispose 0] := by
  have hp2 : ("/about" : String) ≠ p0 := fun h => hp h.symm
  simp [run, step, CState.start, runEffect1Body, runEffect2Body,
    runEffect1Cleanup, hp2]

/-- Witness for C7 amended: the scenario at router 0, initial path "/". -/
theorem claim7_amended_trace_witness :
    ("/" : String) ≠ "/about" ∧
    (run [Event.mount 0 "/", Event.rerender 0 "/about",
        Event.unmount]).trace =
    [Call.construct 0 0, Call.setCurrentPath 0 "/",
     Call.setCurrentPath 0 "/about", Call.dispose 0] :=
  ⟨by decide, claim7_amended_trace 0 "/" (by decide)⟩

/-- C8: a re-render with an unchanged router identity never re-runs the
mount effect, whatever the state: the slot keeps the same controller and
the emitted calls contain no construct and no dispose. -/
theorem claim8_stable_router_no_lifecycle (s : CState) (p : String) :
    (step s (Event.rerender s.router p)).controllerRef = s.controllerRef ∧
    List.filter isLifecycle (emitted s (Event.rerender s.router p)) = [] := by
  cases hm : s.mounted with
  | false =>
      have hstep := step_rerender_unmounted s s.router p hm
      rw [hstep, emitted_of_step_self _ _ hstep]
      exact ⟨rfl, rfl⟩
  | true =>
      by_cases hp : p = s.pathname
      · subst hp
        have hstep := step_rerender_same s hm
        rw [hstep, emitted_of_step_self _ _ hstep]
        exact ⟨rfl, rfl⟩
      · cases hc : s.controllerRef with
        | none =>
            have hstep := step_rerender_path_none s p hm hp hc
            refine ⟨by rw [hstep]; exact hc, ?_⟩
            rw [emitted_of_trace_eq s _ (by rw [hstep])]
            rfl
        | some c =>
            refine ⟨by rw [step_rerender_path s p c hm hp hc]; exact hc, ?_⟩
            rw [emitted_rerender_path s p c hm hp hc]
            simp [isLifecycle]

/-- C9: on a mount from the unmounted state, the pathname effect fires
right after controller construction: the emitted calls are exactly one
construct followed by exactly one `setCurrentPath` carrying the mount-time
pathname, even though no path change event occurred. -/
theorem claim9_mount_reports_initial_path (s : CState) (r : Nat)
    (p : String) (hm : s.mounted = false) :
    emitted s (Event.mount r p) =
      [Call.construct s.nextId r, Call.setCurrentPath s.nextId p] ∧
    List.filter isSetPath (emitted s (Event.mount r p)) =
      [Call.setCurrentPath s.nextId p] := by
  have h := emitted_mount s r p hm
  rw [h]
  exact ⟨rfl, by simp [isSetPath]⟩

/-- Witness for C9: the very first mount at pathname "/". -/
theorem claim9_mount_reports_initial_path_witness :
    CState.start.mounted = false ∧
    (emitted CState.start (Event.mount 0 "/") =
      [Call.construct CState.start.nextId 0,
       Call.setCurrentPath CState.start.nextId "/"] ∧
    List.filter isSetPath (emitted CState.start (Event.mount 0 "/")) =
      [Call.setCurrentPath CState.start.nextId "/"]) :=
  ⟨rfl, claim9_mount_reports_initial_path CState.start 0 "/" rfl⟩

/-- C10: after a router-identity change with the pathname unchanged, the
replacement controller is in the slot but receives no `setCurrentPath`
call — not in the re-initializing render, and not during any following
events that keep the pathname unchanged within this mount cycle. -/
theorem claim10_new_controller_unreported (evs : List Event) (x : Nat)
    (evs2 : List Event) (hm : (run evs).mounted = true)
    (hr : x ≠ (run evs).router)
    (hsafe : ∀ e ∈ evs2, pathSafeEvent (run evs).pathname e = true) :
    (step (run evs) (Event.rerender x (run evs).pathname)).controllerRef =
      some (run evs).nextId ∧
    setPathCount
      (List.foldl step
        (step (run evs) (Event.rerender x (run evs).pathname)) evs2).trace
      (run evs).nextId = 0 := by
  have hi := stateInv_run evs
  obtain ⟨m, hcm, hmn⟩ := hi.refOfMounted hm
  have hstep := step_rerender_router (run evs) x m hm hr hcm
  refine ⟨by rw [hstep], ?_⟩
  have hi2 : StateInv (step (run evs) (Event.rerender x (run evs).pathname)) :=
    stateInv_step _ _ hi
  have hp2 : (step (run evs)
      (Event.rerender x (run evs).pathname)).pathname =
      (run evs).pathname := by
    rw [hstep]
  have h0 : setPathCount
      (step (run evs) (Event.rerender x (run evs).pathname)).trace
      (run evs).nextId = 0 := by
    rw [hstep]
    dsimp only
    rw [setPathCount_append, hi.pathFresh (run evs).nextId (le_refl _)]
    simp [setPathCount_cons, setPathCount_nil]
  exact setPathCount_foldl_pathSafe evs2 _ (run evs).pathname
    (run evs).nextId hi2 hp2 hsafe h0

/-- Witness for C10: mount at "/", swap the router identity, then a
same-path re-render, a navigation request and the unmount; controller 1
never receives a path report. -/
theorem claim10_new_controller_unreported_witness :
    (run [Event.mount 0 "/"]).mounted = true ∧
    (1 : Nat) ≠ (run [Event.mount 0 "/"]).router ∧
    (∀ e ∈ [Event.rerender 1 "/", Event.navReq 1 "/go", Event.unmount],
      pathSafeEvent (run [Event.mount 0 "/"]).pathname e = true) ∧
    ((step (run [Event.mount 0 "/"])
        (Event.rerender 1 (run [Event.mount 0 "/"]).pathname)).controllerRef =
      some (run [Event.mount 0 "/"]).nextId ∧
    setPathCount
      (List.foldl step
        (step (run [Event.mount 0 "/"])
          (Event.rerender 1 (run [Event.mount 0 "/"]).pathname))
        [Event.rerender 1 "/", Event.navReq 1 "/go", Event.unmount]).trace
      (run [Event.mount 0 "/"]).nextId = 0) :=
  ⟨by decide, by decide, by decide,
   claim10_new_controller_unreported [Event.mount 0 "/"] 1
     [Event.rerender 1 "/", Event.navReq 1 "/go", Event.unmount]
     (by decide) (by decide) (by decide)⟩
